import Mathlib

/-!
Verification development for the betbot opportunity-detection engine
(`arbitrage_scanner.py`, `value_scanner.py`).

Prices are modelled as rationals.  Python truthiness of a numeric field
(`if yes_ask and no_ask`) is modelled as `≠ 0`.  Python's builtin
`sorted(l, key=k, reverse=True)` is modelled by `sorted_desc_by`, a stable
non-increasing insertion sort, which is the documented contract of the
builtin (stable sort, descending by key).
-/

/-- A raw market row as returned by `kalshi.get_markets` (prices are raw
`yes_ask`/`no_ask` fields, in integer cents in the venue payload). -/
structure KalshiMarket where
  ticker : String
  title : String
  yes_ask : ℚ
  no_ask : ℚ
  deriving Repr, DecidableEq

/-- A market-detail record as returned by `kalshi.get_market_details`
(the client divides all four quote fields by 100, so these are in [0,1]). -/
structure KalshiDetails where
  ticker : String
  title : String
  yes_ask : ℚ
  no_ask : ℚ
  yes_bid : ℚ
  no_bid : ℚ
  volume : ℚ
  open_interest : ℚ
  deriving Repr, DecidableEq

/-- A simplified market as returned by `polymarket.get_simplified_markets`:
it carries ask-side prices, volume and liquidity, and no bid fields. -/
structure PolyMarket where
  condition_id : String
  question : String
  yes_price : ℚ
  no_price : ℚ
  volume : ℚ
  liquidity : ℚ
  deriving Repr, DecidableEq

/-! ### Stable descending sort: model of `sorted(l, key=key, reverse=True)` -/

/-- Insert `x` into `l` before the first element whose key is `≤ key x`.
Elements with key strictly greater than `key x` are passed over. -/
def insert_desc {α : Type} (key : α → ℚ) (x : α) : List α → List α
  | [] => [x]
  | y :: ys => if key y ≤ key x then x :: y :: ys else y :: insert_desc key x ys

/-- Stable non-increasing sort by `key`: model of Python
`sorted(l, key=key, reverse=True)` (Timsort is stable; `reverse=True`
does not reorder equal-key elements). -/
def sorted_desc_by {α : Type} (key : α → ℚ) (l : List α) : List α :=
  l.foldr (insert_desc key) []

lemma mem_insert_desc {α : Type} (key : α → ℚ) (x a : α) (l : List α) :
    a ∈ insert_desc key x l ↔ a = x ∨ a ∈ l := by
  induction l with
  | nil => simp [insert_desc]
  | cons y ys ih =>
    by_cases h : key y ≤ key x
    · simp [insert_desc, h]
    · simp [insert_desc, h, ih]
      tauto

lemma pairwise_insert_desc {α : Type} (key : α → ℚ) (x : α) (l : List α)
    (hl : l.Pairwise (fun a b => key b ≤ key a)) :
    (insert_desc key x l).Pairwise (fun a b => key b ≤ key a) := by
  induction l with
  | nil => simp [insert_desc]
  | cons y ys ih =>
    rcases List.pairwise_cons.1 hl with ⟨hy, hys⟩
    by_cases h : key y ≤ key x
    · rw [insert_desc, if_pos h]
      refine List.pairwise_cons.2 ⟨?_, hl⟩
      intro b hb
      rcases List.mem_cons.1 hb with hb | hb
      · exact hb ▸ h
      · exact le_trans (hy b hb) h
    · rw [insert_desc, if_neg h]
      refine List.pairwise_cons.2 ⟨?_, ih hys⟩
      intro b hb
      rcases (mem_insert_desc key x b ys).1 hb with hb | hb
      · exact hb ▸ le_of_lt (lt_of_not_le h)
      · exact hy b hb

lemma filter_insert_desc {α : Type} (key : α → ℚ) (k : ℚ) (x : α) (l : List α) :
    (insert_desc key x l).filter (fun a => decide (key a = k)) =
      if key x = k then x :: l.filter (fun a => decide (key a = k))
      else l.filter (fun a => decide (key a = k)) := by
  induction l with
  | nil =>
    by_cases h : key x = k <;> simp [insert_desc, h]
  | cons y ys ih =>
    by_cases h : key y ≤ key x
    · rw [insert_desc, if_pos h]
      by_cases hx : key x = k <;> simp [List.filter_cons, hx]
    · rw [insert_desc, if_neg h]
      by_cases hx : key x = k
      · have hy : ¬ (key y = k) := by
          rw [← hx]
          exact ne_of_gt (lt_of_not_le h)
        simp [List.filter_cons, hy, ih, hx]
      · by_cases hy : key y = k <;> simp [List.filter_cons, hy, ih, hx]

/-- The output of `sorted_desc_by` is non-increasing in `key`. -/
lemma sorted_desc_by_sorted {α : Type} (key : α → ℚ) (l : List α) :
    (sorted_desc_by key l).Pairwise (fun a b => key b ≤ key a) := by
  induction l with
  | nil => simp [sorted_desc_by]
  | cons x xs ih => exact pairwise_insert_desc key x _ ih

/-- Stability: for every key value `k`, the elements of the sorted output
whose key is `k` appear in exactly their input order. -/
lemma sorted_desc_by_stable {α : Type} (key : α → ℚ) (k : ℚ) (l : List α) :
    (sorted_desc_by key l).filter (fun a => decide (key a = k)) =
      l.filter (fun a => decide (key a = k)) := by
  induction l with
  | nil => rfl
  | cons x xs ih =>
    show (insert_desc key x (sorted_desc_by key xs)).filter _ = _
    rw [filter_insert_desc]
    by_cases hx : key x = k <;> simp [List.filter_cons, hx, ih]

/-! ### Market matcher (`_markets_match`, called on lower-cased titles) -/

/-- The `skip_words` set of `_markets_match`. -/
def skip_words : List String :=
  ["will", "the", "be", "a", "an", "in", "on", "at", "to", "for"]

/-- Token set of a title: split on whitespace, keep words not in
`skip_words` of length > 2 (the length filter also discards the empty
chunks a whitespace run produces, matching Python `str.split()`). -/
def title_words (title : String) : Finset String :=
  ((title.split Char.isWhitespace).filter
    (fun w => decide (w ∉ skip_words ∧ 2 < w.length))).toFinset

/-- `_markets_match(title1, title2)`: no match if either token set is
empty, else match iff `|words1 ∩ words2| / min(|words1|, |words2|) > 0.5`. -/
def markets_match (title1 title2 : String) : Bool :=
  let words1 := title_words title1
  let words2 := title_words title2
  if words1 = ∅ ∨ words2 = ∅ then false
  else decide ((1 : ℚ)/2 < ((words1 ∩ words2).card : ℚ) / (min words1.card words2.card : ℚ))

/-- The matcher as the pipeline applies it: `find_cross_platform_arbitrage`
lower-cases both titles before calling `_markets_match`. -/
def matcher_decision (t1 t2 : String) : Bool :=
  markets_match t1.toLower t2.toLower

/-- The stop-word set as the specification writes it. -/
def stop_words : Finset String :=
  {"will", "the", "be", "a", "an", "in", "on", "at", "to", "for"}

/-- Modelled from the spec wording of the matcher: lower-case both titles,
tokenize on whitespace, drop stop-words and tokens of length ≤ 2; no match
if either set is empty, else match iff overlap of the smaller set
exceeds 0.5. -/
def spec_pair_matches (t1 t2 : String) : Bool :=
  let set_a := (((t1.toLower).split Char.isWhitespace).filter
    (fun w => decide (w ∉ stop_words ∧ 2 < w.length))).toFinset
  let set_b := (((t2.toLower).split Char.isWhitespace).filter
    (fun w => decide (w ∉ stop_words ∧ 2 < w.length))).toFinset
  if set_a = ∅ ∨ set_b = ∅ then false
  else decide (((set_a ∩ set_b).card : ℚ) / (min set_a.card set_b.card : ℚ) > 1/2)

lemma mem_skip_iff_mem_stop (w : String) : w ∈ skip_words ↔ w ∈ stop_words := by
  simp [skip_words, stop_words]

/-! ### Opportunity records -/

/-- A cross-platform arbitrage opportunity (`_calculate_arbitrage`). -/
structure CrossArb where
  strategy : String
  kalshi_side : String
  kalshi_price : ℚ
  polymarket_side : String
  polymarket_price : ℚ
  total_cost : ℚ
  gross_profit : ℚ
  kalshi_fee : ℚ
  polymarket_gas : ℚ
  total_fees : ℚ
  net_profit : ℚ
  profit_percentage : ℚ
  roi_percentage : ℚ
  deriving Repr, DecidableEq

/-- An internal (single-venue) arbitrage opportunity
(`find_internal_arbitrage`). -/
structure InternalArb where
  platform : String
  buy_yes_at : ℚ
  buy_no_at : ℚ
  total_cost : ℚ
  gross_profit : ℚ
  platform_fee : ℚ
  gas_fee : ℚ
  total_fees : ℚ
  net_profit : ℚ
  profit_percentage : ℚ
  roi_percentage : ℚ
  deriving Repr, DecidableEq

/-- A value bet (`find_mispriced_markets`). -/
structure ValueBet where
  platform : String
  side : String
  entry_price : ℚ
  fair_value : ℚ
  edge : ℚ
  edge_percentage : ℚ
  expected_profit : ℚ
  platform_fee : ℚ
  gas_fee : ℚ
  net_expected_profit : ℚ
  roi_percentage : ℚ
  volume : ℚ
  liquidity : ℚ
  deriving Repr, DecidableEq

/-- An extreme-probability flag (`find_extreme_probabilities`).
`confidence` is the string the code stores. -/
structure Extreme where
  platform : String
  yes_price : ℚ
  confidence : String
  deriving Repr, DecidableEq

/-! ### Cross-platform arbitrage (`_calculate_arbitrage`) -/

/-- `_calculate_arbitrage(kalshi_market, polymarket_market)`.  Reads
`yes_ask`/`no_ask` from the raw kalshi row (undivided) and
`yes_price`/`no_price` from the polymarket row; returns `none` when any of
the four is falsy; otherwise tries strategy 1 (`k_yes_ask + p_no_price`)
then strategy 2 (`p_yes_price + k_no_ask`); a strategy is emitted when its
cost is `< 1` and its `profit_pct ≥ min_profit_threshold * 100`. -/
def calculate_arbitrage (min_profit_threshold : ℚ)
    (kalshi_market : KalshiMarket) (polymarket_market : PolyMarket) :
    Option CrossArb :=
  let k_yes_ask := kalshi_market.yes_ask
  let k_no_ask := kalshi_market.no_ask
  let p_yes_price := polymarket_market.yes_price
  let p_no_price := polymarket_market.no_price
  if k_yes_ask ≠ 0 ∧ k_no_ask ≠ 0 ∧ p_yes_price ≠ 0 ∧ p_no_price ≠ 0 then
    let total_cost1 := k_yes_ask + p_no_price
    let total_cost2 := p_yes_price + k_no_ask
    let kalshi_fee_rate : ℚ := 7/100
    let strategy1 : Option CrossArb :=
      if total_cost1 < 1 then
        let gross_profit := 1 - total_cost1
        let kalshi_profit_fee := gross_profit * kalshi_fee_rate
        let polymarket_gas : ℚ := 1/50
        let net_profit := gross_profit - kalshi_profit_fee - polymarket_gas
        let profit_pct := net_profit / total_cost1 * 100
        if profit_pct ≥ min_profit_threshold * 100 then
          some ⟨"buy yes on kalshi, no on polymarket", "yes", k_yes_ask,
                "no", p_no_price, total_cost1, gross_profit,
                kalshi_profit_fee, polymarket_gas,
                kalshi_profit_fee + polymarket_gas, net_profit, profit_pct,
                net_profit / total_cost1 * 100⟩
        else none
      else none
    match strategy1 with
    | some a => some a
    | none =>
      if total_cost2 < 1 then
        let gross_profit := 1 - total_cost2
        let kalshi_profit_fee := gross_profit * kalshi_fee_rate
        let polymarket_gas : ℚ := 1/50
        let net_profit := gross_profit - kalshi_profit_fee - polymarket_gas
        let profit_pct := net_profit / total_cost2 * 100
        if profit_pct ≥ min_profit_threshold * 100 then
          some ⟨"buy yes on polymarket, no on kalshi", "no", k_no_ask,
                "yes", p_yes_price, total_cost2, gross_profit,
                kalshi_profit_fee, polymarket_gas,
                kalshi_profit_fee + polymarket_gas, net_profit, profit_pct,
                net_profit / total_cost2 * 100⟩
        else none
      else none
  else none

/-! ### Internal arbitrage (`find_internal_arbitrage`) -/

/-- Per-market body of the kalshi branch of `find_internal_arbitrage`:
the raw `yes_ask`/`no_ask` fields are divided by 100 when truthy. -/
def internal_arb_kalshi (min_profit_threshold : ℚ) (market : KalshiMarket) :
    Option InternalArb :=
  let yes_ask := if market.yes_ask ≠ 0 then market.yes_ask / 100 else 0
  let no_ask := if market.no_ask ≠ 0 then market.no_ask / 100 else 0
  if yes_ask ≠ 0 ∧ no_ask ≠ 0 then
    let total_cost := yes_ask + no_ask
    if total_cost < 1 then
      let gross_profit := 1 - total_cost
      let kalshi_fee := gross_profit * (7/100)
      let net_profit := gross_profit - kalshi_fee
      let profit_pct := net_profit / total_cost * 100
      if profit_pct ≥ min_profit_threshold * 100 then
        some ⟨"kalshi", yes_ask, no_ask, total_cost, gross_profit,
              kalshi_fee, 0, kalshi_fee, net_profit, profit_pct,
              net_profit / total_cost * 100⟩
      else none
    else none
  else none

/-- Per-market body of the polymarket branch of `find_internal_arbitrage`. -/
def internal_arb_poly (min_profit_threshold : ℚ) (market : PolyMarket) :
    Option InternalArb :=
  let yes_price := market.yes_price
  let no_price := market.no_price
  if yes_price ≠ 0 ∧ no_price ≠ 0 then
    let total_cost := yes_price + no_price
    if total_cost < 1 then
      let gross_profit := 1 - total_cost
      let gas_fee : ℚ := 1/50
      let net_profit := gross_profit - gas_fee
      let profit_pct := net_profit / total_cost * 100
      if profit_pct ≥ min_profit_threshold * 100 then
        some ⟨"polymarket", yes_price, no_price, total_cost, gross_profit,
              0, gas_fee, gas_fee, net_profit, profit_pct,
              net_profit / total_cost * 100⟩
      else none
    else none
  else none

/-! ### Value scanner (`find_mispriced_markets`) -/

/-- Per-market body of the kalshi branch of `find_mispriced_markets`:
requires truthy asks, then for each side a positive bid and an edge above
`min_edge`; emits the yes-side bet before the no-side bet. -/
def value_bets_kalshi (min_edge : ℚ) (details : KalshiDetails) :
    List ValueBet :=
  if details.yes_ask ≠ 0 ∧ details.no_ask ≠ 0 then
    let yes_side : List ValueBet :=
      if details.yes_bid > 0 then
        let fair_value_yes := 1 - details.no_ask
        let edge_yes := fair_value_yes - details.yes_ask
        if edge_yes > min_edge then
          let kalshi_fee := edge_yes * (7/100)
          let net_profit := edge_yes - kalshi_fee
          [⟨"kalshi", "yes", details.yes_ask, fair_value_yes, edge_yes,
            edge_yes * 100, edge_yes, kalshi_fee, 0, net_profit,
            net_profit / details.yes_ask * 100, details.volume,
            details.open_interest⟩]
        else []
      else []
    let no_side : List ValueBet :=
      if details.no_bid > 0 then
        let fair_value_no := 1 - details.yes_ask
        let edge_no := fair_value_no - details.no_ask
        if edge_no > min_edge then
          let kalshi_fee := edge_no * (7/100)
          let net_profit := edge_no - kalshi_fee
          [⟨"kalshi", "no", details.no_ask, fair_value_no, edge_no,
            edge_no * 100, edge_no, kalshi_fee, 0, net_profit,
            net_profit / details.no_ask * 100, details.volume,
            details.open_interest⟩]
        else []
      else []
    yes_side ++ no_side
  else []

/-- Per-market body of the polymarket branch of `find_mispriced_markets`:
requires truthy prices, then for each side only an edge above `min_edge`
(no bid fields exist in a simplified polymarket row and none is checked);
the `roi_percentage` division carries an explicit `> 0` guard. -/
def value_bets_poly (min_edge : ℚ) (market : PolyMarket) : List ValueBet :=
  if market.yes_price ≠ 0 ∧ market.no_price ≠ 0 then
    let yes_side : List ValueBet :=
      let fair_value_yes := 1 - market.no_price
      let edge_yes := fair_value_yes - market.yes_price
      if edge_yes > min_edge then
        let gas_fee : ℚ := 1/50
        let net_profit := edge_yes - gas_fee
        [⟨"polymarket", "yes", market.yes_price, fair_value_yes, edge_yes,
          edge_yes * 100, edge_yes, 0, gas_fee, net_profit,
          if market.yes_price > 0 then net_profit / market.yes_price * 100
          else 0, market.volume, market.liquidity⟩]
      else []
    let no_side : List ValueBet :=
      let fair_value_no := 1 - market.yes_price
      let edge_no := fair_value_no - market.no_price
      if edge_no > min_edge then
        let gas_fee : ℚ := 1/50
        let net_profit := edge_no - gas_fee
        [⟨"polymarket", "no", market.no_price, fair_value_no, edge_no,
          edge_no * 100, edge_no, 0, gas_fee, net_profit,
          if market.no_price > 0 then net_profit / market.no_price * 100
          else 0, market.volume, market.liquidity⟩]
      else []
    yes_side ++ no_side
  else []

/-! ### Extreme probabilities (`find_extreme_probabilities`) -/

/-- Per-market body of the kalshi branch of `find_extreme_probabilities`:
no price-presence gate, only the extremity test on `yes_ask`. -/
def extreme_kalshi (threshold : ℚ) (details : KalshiDetails) :
    Option Extreme :=
  if details.yes_ask > threshold ∨ details.yes_ask < 1 - threshold then
    some ⟨"kalshi", details.yes_ask,
          if details.yes_ask > threshold then "high_yes" else "high_no"⟩
  else none

/-- Per-market body of the polymarket branch of
`find_extreme_probabilities`: same shape, reading `yes_price`. -/
def extreme_poly (threshold : ℚ) (market : PolyMarket) : Option Extreme :=
  if market.yes_price > threshold ∨ market.yes_price < 1 - threshold then
    some ⟨"polymarket", market.yes_price,
          if market.yes_price > threshold then "high_yes" else "high_no"⟩
  else none

/-! ### Discovery lists and sorted scanner outputs -/

/-- Discovery order of `find_cross_platform_arbitrage`: nested loops over
kalshi rows then polymarket rows, keeping matched pairs with an emitted
opportunity. -/
def cross_candidates (min_profit_threshold : ℚ)
    (kalshi_markets : List KalshiMarket)
    (polymarket_markets : List PolyMarket) : List CrossArb :=
  kalshi_markets.bind fun k =>
    polymarket_markets.filterMap fun p =>
      if markets_match k.title.toLower p.question.toLower then
        calculate_arbitrage min_profit_threshold k p
      else none

/-- `find_cross_platform_arbitrage`, sorted descending by
`profit_percentage`. -/
def find_cross_platform_arbitrage (min_profit_threshold : ℚ)
    (kalshi_markets : List KalshiMarket)
    (polymarket_markets : List PolyMarket) : List CrossArb :=
  sorted_desc_by (fun o => o.profit_percentage)
    (cross_candidates min_profit_threshold kalshi_markets polymarket_markets)

/-- Discovery order of the kalshi branch of `find_internal_arbitrage`. -/
def internal_candidates_kalshi (min_profit_threshold : ℚ)
    (markets : List KalshiMarket) : List InternalArb :=
  markets.filterMap (internal_arb_kalshi min_profit_threshold)

/-- Kalshi branch of `find_internal_arbitrage`, sorted descending by
`profit_percentage`. -/
def find_internal_arbitrage_kalshi (min_profit_threshold : ℚ)
    (markets : List KalshiMarket) : List InternalArb :=
  sorted_desc_by (fun o => o.profit_percentage)
    (internal_candidates_kalshi min_profit_threshold markets)

/-- Discovery order of the polymarket branch of `find_internal_arbitrage`. -/
def internal_candidates_poly (min_profit_threshold : ℚ)
    (markets : List PolyMarket) : List InternalArb :=
  markets.filterMap (internal_arb_poly min_profit_threshold)

/-- Polymarket branch of `find_internal_arbitrage`, sorted descending by
`profit_percentage`. -/
def find_internal_arbitrage_poly (min_profit_threshold : ℚ)
    (markets : List PolyMarket) : List InternalArb :=
  sorted_desc_by (fun o => o.profit_percentage)
    (internal_candidates_poly min_profit_threshold markets)

/-- Discovery order of the kalshi branch of `find_mispriced_markets`. -/
def value_candidates_kalshi (min_edge : ℚ)
    (details_rows : List KalshiDetails) : List ValueBet :=
  details_rows.bind (value_bets_kalshi min_edge)

/-- Kalshi branch of `find_mispriced_markets`, sorted descending by
`edge_percentage`. -/
def find_mispriced_markets_kalshi (min_edge : ℚ)
    (details_rows : List KalshiDetails) : List ValueBet :=
  sorted_desc_by (fun b => b.edge_percentage)
    (value_candidates_kalshi min_edge details_rows)

/-- Discovery order of the polymarket branch of `find_mispriced_markets`. -/
def value_candidates_poly (min_edge : ℚ)
    (markets : List PolyMarket) : List ValueBet :=
  markets.bind (value_bets_poly min_edge)

/-- Polymarket branch of `find_mispriced_markets`, sorted descending by
`edge_percentage`. -/
def find_mispriced_markets_poly (min_edge : ℚ)
    (markets : List PolyMarket) : List ValueBet :=
  sorted_desc_by (fun b => b.edge_percentage)
    (value_candidates_poly min_edge markets)

/-- Discovery order of the kalshi branch of `find_extreme_probabilities`. -/
def extreme_candidates_kalshi (threshold : ℚ)
    (details_rows : List KalshiDetails) : List Extreme :=
  details_rows.filterMap (extreme_kalshi threshold)

/-- Kalshi branch of `find_extreme_probabilities`, sorted descending by
`|yes_price - 0.5|`. -/
def find_extreme_probabilities_kalshi (threshold : ℚ)
    (details_rows : List KalshiDetails) : List Extreme :=
  sorted_desc_by (fun e => |e.yes_price - 1/2|)
    (extreme_candidates_kalshi threshold details_rows)

/-- Discovery order of the polymarket branch of
`find_extreme_probabilities`. -/
def extreme_candidates_poly (threshold : ℚ)
    (markets : List PolyMarket) : List Extreme :=
  markets.filterMap (extreme_poly threshold)

/-- Polymarket branch of `find_extreme_probabilities`, sorted descending by
`|yes_price - 0.5|`. -/
def find_extreme_probabilities_poly (threshold : ℚ)
    (markets : List PolyMarket) : List Extreme :=
  sorted_desc_by (fun e => |e.yes_price - 1/2|)
    (extreme_candidates_poly threshold markets)

/-- `find_high_liquidity_value` for the polymarket venue: keeps bets with
`volume > min_volume` OR `liquidity > min_volume`. -/
def find_high_liquidity_value_poly (min_edge min_volume : ℚ)
    (markets : List PolyMarket) : List ValueBet :=
  (find_mispriced_markets_poly min_edge markets).filter
    (fun bet => decide (bet.volume > min_volume ∨ bet.liquidity > min_volume))

/-- `find_high_liquidity_value` for the kalshi venue. -/
def find_high_liquidity_value_kalshi (min_edge min_volume : ℚ)
    (details_rows : List KalshiDetails) : List ValueBet :=
  (find_mispriced_markets_kalshi min_edge details_rows).filter
    (fun bet => decide (bet.volume > min_volume ∨ bet.liquidity > min_volume))

/-! ### Scan orchestrators (`scan_all_arbitrage`, `scan_all_value`) -/

/-- The consolidated result of `scan_all_arbitrage`. -/
structure ArbReport where
  cross_platform : List CrossArb
  kalshi_internal : List InternalArb
  polymarket_internal : List InternalArb
  total_opportunities : ℕ
  cross_platform_count : ℕ
  kalshi_internal_count : ℕ
  polymarket_internal_count : ℕ
  deriving Repr, DecidableEq

/-- `scan_all_arbitrage` over the two venue snapshots. -/
def scan_all_arbitrage (min_profit_threshold : ℚ)
    (kalshi_markets : List KalshiMarket)
    (polymarket_markets : List PolyMarket) : ArbReport :=
  let cross := find_cross_platform_arbitrage min_profit_threshold
    kalshi_markets polymarket_markets
  let kalshi_internal := find_internal_arbitrage_kalshi min_profit_threshold
    kalshi_markets
  let polymarket_internal := find_internal_arbitrage_poly min_profit_threshold
    polymarket_markets
  ⟨cross, kalshi_internal, polymarket_internal,
   cross.length + kalshi_internal.length + polymarket_internal.length,
   cross.length, kalshi_internal.length, polymarket_internal.length⟩

/-- The consolidated result of `scan_all_value`. -/
structure ValueReport where
  kalshi_value : List ValueBet
  polymarket_value : List ValueBet
  kalshi_extremes : List Extreme
  polymarket_extremes : List Extreme
  kalshi_liquid_value : List ValueBet
  polymarket_liquid_value : List ValueBet
  total_value_opportunities : ℕ
  total_extreme_probabilities : ℕ
  total_liquid_value : ℕ
  deriving Repr, DecidableEq

/-- `scan_all_value` over the two venue snapshots (`kalshi_rows` are the
detail records the kalshi branch fetches per market; an empty snapshot
yields an empty row list). -/
def scan_all_value (min_edge extreme_threshold min_volume : ℚ)
    (kalshi_rows : List KalshiDetails)
    (polymarket_markets : List PolyMarket) : ValueReport :=
  let kalshi_value := find_mispriced_markets_kalshi min_edge kalshi_rows
  let polymarket_value := find_mispriced_markets_poly min_edge
    polymarket_markets
  let kalshi_extremes := find_extreme_probabilities_kalshi extreme_threshold
    kalshi_rows
  let polymarket_extremes := find_extreme_probabilities_poly extreme_threshold
    polymarket_markets
  let kalshi_liquid := find_high_liquidity_value_kalshi min_edge min_volume
    kalshi_rows
  let polymarket_liquid := find_high_liquidity_value_poly min_edge min_volume
    polymarket_markets
  ⟨kalshi_value, polymarket_value, kalshi_extremes, polymarket_extremes,
   kalshi_liquid, polymarket_liquid,
   kalshi_value.length + polymarket_value.length,
   kalshi_extremes.length + polymarket_extremes.length,
   kalshi_liquid.length + polymarket_liquid.length⟩

/-! ### Claim-side internal-arbitrage arithmetic (the formulas of the
specification, stated over normalized prices in [0,1]) -/

/-- `gross_profit = 1 - total_cost` for an internal opportunity. -/
def internal_gross (yes no : ℚ) : ℚ := 1 - (yes + no)

/-- Venue A fee: 7% of gross profit. -/
def internal_fees_A (yes no : ℚ) : ℚ := internal_gross yes no * (7/100)

/-- Venue A net profit. -/
def internal_net_A (yes no : ℚ) : ℚ :=
  internal_gross yes no - internal_fees_A yes no

/-- Venue A `profit_pct = net_profit / total_cost * 100`. -/
def internal_profit_pct_A (yes no : ℚ) : ℚ :=
  internal_net_A yes no / (yes + no) * 100

/-- Venue B fee: flat 0.02 gas. -/
def internal_fees_B : ℚ := 1/50

/-- Venue B net profit. -/
def internal_net_B (yes no : ℚ) : ℚ := internal_gross yes no - internal_fees_B

/-- Venue B `profit_pct = net_profit / total_cost * 100`. -/
def internal_profit_pct_B (yes no : ℚ) : ℚ :=
  internal_net_B yes no / (yes + no) * 100

/-! ### Claim theorems -/

/-- C7: the matcher's pairing decision is symmetric: for every two titles
the decision for (t1, t2) equals the decision for (t2, t1). -/
theorem markets_match_symmetric (t1 t2 : String) :
    markets_match t1 t2 = markets_match t2 t1 := by
  unfold markets_match
  have h1 : title_words t1 ∩ title_words t2 = title_words t2 ∩ title_words t1 :=
    Finset.inter_comm _ _
  have h2 : min (title_words t1).card (title_words t2).card
      = min (title_words t2).card (title_words t1).card := min_comm _ _
  have h3 : min ((title_words t1).card : ℚ) ((title_words t2).card : ℚ)
      = min ((title_words t2).card : ℚ) ((title_words t1).card : ℚ) := min_comm _ _
  by_cases hA : title_words t1 = ∅ <;> by_cases hB : title_words t2 = ∅ <;>
    simp [hA, hB, h1, h2, h3]

/-- C6: for every pair of titles, the matcher's decision (lower-case both
titles, split on whitespace, drop stop-words and tokens of length ≤ 2,
no match on an empty set, else match iff the overlap of the smaller set
exceeds 0.5) equals the formula the specification states. -/
theorem matcher_equals_spec_formula (t1 t2 : String) :
    matcher_decision t1 t2 = spec_pair_matches t1 t2 := by
  have hf : ∀ t : String,
      ((t.split Char.isWhitespace).filter
        (fun w => decide (w ∉ skip_words ∧ 2 < w.length))) =
      ((t.split Char.isWhitespace).filter
        (fun w => decide (w ∉ stop_words ∧ 2 < w.length))) := by
    intro t
    apply List.filter_congr
    intro w _
    simp [mem_skip_iff_mem_stop]
  unfold matcher_decision markets_match spec_pair_matches title_words
  rw [hf, hf]

/-- C10: with both venue snapshots empty, a full scan returns a report
whose every opportunity list is empty and whose summary counts are all
zero, for any configuration of thresholds. -/
theorem empty_snapshots_empty_report (thr me et mv : ℚ) :
    scan_all_arbitrage thr [] [] = ⟨[], [], [], 0, 0, 0, 0⟩ ∧
    scan_all_value me et mv [] [] = ⟨[], [], [], [], [], [], 0, 0, 0⟩ :=
  ⟨rfl, rfl⟩

/-- C4: for a matched pair with all four prices quoted, venue A
`yes_price = 0.40` and venue B `no_price = 0.55`, strategy 1 yields
`total_cost = 0.95`, `gross_profit = 0.05`,
`fees = 0.05 * 0.07 + 0.02 = 0.0235`, `net_profit = 0.0265` and
`profit_pct = 53/19 ≈ 2.79%`, which qualifies at the default 2% threshold. -/
theorem cross_scenario_two :
    calculate_arbitrage (1/50) ⟨"FED", "t", 2/5, 13/20⟩
        ⟨"cid", "q", 9/20, 11/20, 0, 0⟩ =
      some ⟨"buy yes on kalshi, no on polymarket", "yes", 2/5, "no", 11/20,
            19/20, 1/20, 7/2000, 1/50, 47/2000, 53/2000, 53/19, 53/19⟩ ∧
    (53 : ℚ)/19 ≥ (1/50) * 100 ∧
    (278 : ℚ)/100 < 53/19 ∧ (53 : ℚ)/19 < 280/100 := by
  refine ⟨?_, by norm_num, by norm_num, by norm_num⟩
  norm_num [calculate_arbitrage]

lemma internal_arb_kalshi_eq (thr : ℚ) (m : KalshiMarket)
    (hky : m.yes_ask ≠ 0) (hkn : m.no_ask ≠ 0)
    (hk1 : m.yes_ask / 100 + m.no_ask / 100 < 1) :
    internal_arb_kalshi thr m =
      if internal_profit_pct_A (m.yes_ask / 100) (m.no_ask / 100) ≥ thr * 100
      then some ⟨"kalshi", m.yes_ask / 100, m.no_ask / 100,
                 m.yes_ask / 100 + m.no_ask / 100,
                 internal_gross (m.yes_ask / 100) (m.no_ask / 100),
                 internal_fees_A (m.yes_ask / 100) (m.no_ask / 100), 0,
                 internal_fees_A (m.yes_ask / 100) (m.no_ask / 100),
                 internal_net_A (m.yes_ask / 100) (m.no_ask / 100),
                 internal_profit_pct_A (m.yes_ask / 100) (m.no_ask / 100),
                 internal_net_A (m.yes_ask / 100) (m.no_ask / 100) /
                   (m.yes_ask / 100 + m.no_ask / 100) * 100⟩
      else none := by
  have hky2 : m.yes_ask / 100 ≠ 0 := div_ne_zero hky (by norm_num)
  have hkn2 : m.no_ask / 100 ≠ 0 := div_ne_zero hkn (by norm_num)
  unfold internal_arb_kalshi internal_profit_pct_A internal_net_A
    internal_fees_A internal_gross
  simp [hky, hkn, hky2, hkn2, hk1]

lemma internal_arb_poly_eq (thr : ℚ) (p : PolyMarket)
    (hpy : p.yes_price ≠ 0) (hpn : p.no_price ≠ 0)
    (hp1 : p.yes_price + p.no_price < 1) :
    internal_arb_poly thr p =
      if internal_profit_pct_B p.yes_price p.no_price ≥ thr * 100
      then some ⟨"polymarket", p.yes_price, p.no_price,
                 p.yes_price + p.no_price,
                 internal_gross p.yes_price p.no_price, 0,
                 internal_fees_B, internal_fees_B,
                 internal_net_B p.yes_price p.no_price,
                 internal_profit_pct_B p.yes_price p.no_price,
                 internal_net_B p.yes_price p.no_price /
                   (p.yes_price + p.no_price) * 100⟩
      else none := by
  unfold internal_arb_poly internal_profit_pct_B internal_net_B
    internal_fees_B internal_gross
  simp [hpy, hpn, hp1]

/-- C1: for a normalized market with both prices nonzero and
`yes + no < 1`, the internal check emits an opportunity iff its
`profit_pct = net_profit / total_cost * 100` (net of the venue fee: 7% of
gross profit on venue A, flat 0.02 on venue B) is at least
`min_profit_threshold * 100`; and whenever the fee is positive the net
profit is strictly below the gross profit. -/
theorem internal_arbitrage_emission (thr : ℚ) (m : KalshiMarket)
    (p : PolyMarket)
    (hky : m.yes_ask ≠ 0) (hkn : m.no_ask ≠ 0)
    (hk1 : m.yes_ask / 100 + m.no_ask / 100 < 1)
    (hpy : p.yes_price ≠ 0) (hpn : p.no_price ≠ 0)
    (hp1 : p.yes_price + p.no_price < 1) :
    ((internal_arb_kalshi thr m ≠ none ↔
        internal_profit_pct_A (m.yes_ask / 100) (m.no_ask / 100) ≥ thr * 100)
      ∧ (internal_fees_A (m.yes_ask / 100) (m.no_ask / 100) > 0 →
          internal_net_A (m.yes_ask / 100) (m.no_ask / 100) <
            internal_gross (m.yes_ask / 100) (m.no_ask / 100)))
    ∧ ((internal_arb_poly thr p ≠ none ↔
        internal_profit_pct_B p.yes_price p.no_price ≥ thr * 100)
      ∧ (internal_fees_B > 0 →
          internal_net_B p.yes_price p.no_price <
            internal_gross p.yes_price p.no_price)) := by
  refine ⟨⟨?_, ?_⟩, ⟨?_, ?_⟩⟩
  · rw [internal_arb_kalshi_eq thr m hky hkn hk1]
    split_ifs with hc <;> simp [hc]
  · intro hf
    unfold internal_net_A
    exact sub_lt_self _ hf
  · rw [internal_arb_poly_eq thr p hpy hpn hp1]
    split_ifs with hc <;> simp [hc]
  · intro hf
    unfold internal_net_B
    exact sub_lt_self _ hf

/-- C1 witness: the markets of scenario 1 (raw kalshi quotes 40/55 cents,
polymarket prices 0.40/0.55) satisfy the hypotheses, and the theorem
applies to them. -/
theorem internal_arbitrage_emission_fact :
    ((40 : ℚ) ≠ 0 ∧ (55 : ℚ) ≠ 0 ∧ (40 : ℚ)/100 + (55 : ℚ)/100 < 1 ∧
      (2 : ℚ)/5 ≠ 0 ∧ (11 : ℚ)/20 ≠ 0 ∧ (2 : ℚ)/5 + 11/20 < 1) ∧
    ((internal_arb_kalshi (1/50) ⟨"T", "t", 40, 55⟩ ≠ none ↔
        internal_profit_pct_A ((40 : ℚ)/100) ((55 : ℚ)/100) ≥ (1/50) * 100)
      ∧ (internal_arb_poly (1/50) ⟨"c", "q", 2/5, 11/20, 0, 0⟩ ≠ none ↔
        internal_profit_pct_B ((2 : ℚ)/5) ((11 : ℚ)/20) ≥ (1/50) * 100)) := by
  have h := internal_arbitrage_emission (1/50) ⟨"T", "t", 40, 55⟩
    ⟨"c", "q", 2/5, 11/20, 0, 0⟩ (by norm_num) (by norm_num) (by norm_num)
    (by norm_num) (by norm_num) (by norm_num)
  exact ⟨⟨by norm_num, by norm_num, by norm_num, by norm_num, by norm_num,
    by norm_num⟩, h.1.1, h.2.1⟩

/-- C5: the internal check reads venue A quotes divided by 100 while the
cross-venue check reads them undivided; hence for a venue A market with
raw `yes_ask ≥ 1` matched against a venue B market with positive prices,
strategy 1's cost `k.yes_ask + p.no_price` is ≥ 1 and any opportunity the
cross-venue check emits is the strategy-2 one. -/
theorem kalshi_scale_mismatch (thr : ℚ) (k : KalshiMarket) (p : PolyMarket)
    (hk1 : 1 ≤ k.yes_ask) (hkn : k.no_ask ≠ 0)
    (hpy : p.yes_price ≠ 0) (hpn : 0 < p.no_price) :
    (∀ o : InternalArb, internal_arb_kalshi thr k = some o →
        o.buy_yes_at = k.yes_ask / 100 ∧ o.buy_no_at = k.no_ask / 100)
  ∧ 1 ≤ k.yes_ask + p.no_price
  ∧ (∀ o : CrossArb, calculate_arbitrage thr k p = some o →
        o.strategy = "buy yes on polymarket, no on kalshi"
          ∧ o.kalshi_price = k.no_ask ∧ o.polymarket_price = p.yes_price) := by
  have hky : k.yes_ask ≠ 0 := by
    intro h
    rw [h] at hk1
    norm_num at hk1
  have hpn0 : p.no_price ≠ 0 := ne_of_gt hpn
  refine ⟨?_, by linarith, ?_⟩
  · intro o ho
    unfold internal_arb_kalshi at ho
    simp only [hky, hkn, if_true, ne_eq, not_false_eq_true, ite_true] at ho
    split_ifs at ho with h1 h2 h3
    rw [Option.some.injEq] at ho
    rw [← ho]
    exact ⟨rfl, rfl⟩
  · intro o ho
    have hnc1 : ¬ (k.yes_ask + p.no_price < 1) := by linarith
    unfold calculate_arbitrage at ho
    simp only [hky, hkn, hpy, hpn0, ne_eq, not_false_eq_true, and_self,
      if_true, ite_true, hnc1, if_false, ite_false] at ho
    split_ifs at ho with h1 h2
    rw [Option.some.injEq] at ho
    rw [← ho]
    exact ⟨rfl, rfl, rfl⟩

/-- C5 witness: raw kalshi quotes 40/55 cents against polymarket prices
0.40/0.55 satisfy the hypotheses, and strategy 1 is priced out. -/
theorem kalshi_scale_mismatch_fact :
    ((1 : ℚ) ≤ 40 ∧ (55 : ℚ) ≠ 0 ∧ (2 : ℚ)/5 ≠ 0 ∧ (0 : ℚ) < 11/20) ∧
    (1 : ℚ) ≤ 40 + 11/20 := by
  have h := kalshi_scale_mismatch (1/50) ⟨"T", "t", 40, 55⟩
    ⟨"c", "q", 2/5, 11/20, 0, 0⟩ (by norm_num) (by norm_num) (by norm_num)
    (by norm_num)
  exact ⟨⟨by norm_num, by norm_num, by norm_num, by norm_num⟩, h.2.1⟩

/-- C2 counterexample: the market with `yes_price = 0`, `no_price = 0.5`
is NOT excluded from the extreme-probability flagger: at the default 0.9
threshold it is flagged `high_no` (the zero price is read as probability
0, which is `< 1 - 0.9`). -/
theorem extreme_flags_unquoted_market :
    extreme_poly (9/10) ⟨"c", "q", 0, 1/2, 0, 0⟩ =
      some ⟨"polymarket", 0, "high_no"⟩ := by
  norm_num [extreme_poly]

/-- C2 amended: a market with either side's price zero is silently
excluded from the cross-venue, internal and value evaluators; the
extreme-probability flagger, however, applies no price-presence gate and
flags any market whose `yes_price` is 0 as `high_no` at the default 0.9
threshold. -/
theorem zero_price_exclusion (thr me : ℚ)
    (k : KalshiMarket) (d : KalshiDetails) (p : PolyMarket)
    (hk : k.yes_ask = 0 ∨ k.no_ask = 0)
    (hd : d.yes_ask = 0 ∨ d.no_ask = 0)
    (hp : p.yes_price = 0 ∨ p.no_price = 0) :
    (∀ q : PolyMarket, calculate_arbitrage thr k q = none)
  ∧ (∀ j : KalshiMarket, calculate_arbitrage thr j p = none)
  ∧ internal_arb_kalshi thr k = none
  ∧ internal_arb_poly thr p = none
  ∧ value_bets_kalshi me d = []
  ∧ value_bets_poly me p = []
  ∧ (∀ q : PolyMarket, q.yes_price = 0 →
      extreme_poly (9/10) q = some ⟨"polymarket", 0, "high_no"⟩)
  ∧ (∀ e : KalshiDetails, e.yes_ask = 0 →
      extreme_kalshi (9/10) e = some ⟨"kalshi", 0, "high_no"⟩) := by
  refine ⟨?_, ?_, ?_, ?_, ?_, ?_, ?_, ?_⟩
  · intro q
    rcases hk with h | h <;> simp [calculate_arbitrage, h]
  · intro j
    rcases hp with h | h <;> simp [calculate_arbitrage, h]
  · rcases hk with h | h <;> simp [internal_arb_kalshi, h]
  · rcases hp with h | h <;> simp [internal_arb_poly, h]
  · rcases hd with h | h <;> simp [value_bets_kalshi, h]
  · rcases hp with h | h <;> simp [value_bets_poly, h]
  · intro q hq
    rw [extreme_poly, hq]
    norm_num
  · intro e he
    rw [extreme_kalshi, he]
    norm_num

/-- C2 witness: concrete zero-priced markets satisfy the hypotheses, and
the internal and value evaluators exclude them. -/
theorem zero_price_exclusion_fact :
    ((0 : ℚ) = 0 ∨ (50 : ℚ) = 0) ∧
    internal_arb_kalshi (1/50) ⟨"T", "t", 0, 50⟩ = none ∧
    value_bets_kalshi (1/20) ⟨"T", "t", 0, 1/2, 1, 1, 0, 0⟩ = [] ∧
    value_bets_poly (1/20) ⟨"c", "q", 0, 1/2, 0, 0⟩ = [] := by
  have h := zero_price_exclusion (1/50) (1/20) ⟨"T", "t", 0, 50⟩
    ⟨"T", "t", 0, 1/2, 1, 1, 0, 0⟩ ⟨"c", "q", 0, 1/2, 0, 0⟩
    (Or.inl rfl) (Or.inl rfl) (Or.inl rfl)
  exact ⟨Or.inl rfl, h.2.2.1, h.2.2.2.2.1, h.2.2.2.2.2.1⟩

/-- The yes-side bet record the kalshi branch of `find_mispriced_markets`
emits. -/
def kalshi_yes_bet (d : KalshiDetails) : ValueBet :=
  ⟨"kalshi", "yes", d.yes_ask, 1 - d.no_ask, 1 - d.no_ask - d.yes_ask,
   (1 - d.no_ask - d.yes_ask) * 100, 1 - d.no_ask - d.yes_ask,
   (1 - d.no_ask - d.yes_ask) * (7/100), 0,
   1 - d.no_ask - d.yes_ask - (1 - d.no_ask - d.yes_ask) * (7/100),
   (1 - d.no_ask - d.yes_ask - (1 - d.no_ask - d.yes_ask) * (7/100)) /
     d.yes_ask * 100, d.volume, d.open_interest⟩

/-- The no-side bet record the kalshi branch of `find_mispriced_markets`
emits. -/
def kalshi_no_bet (d : KalshiDetails) : ValueBet :=
  ⟨"kalshi", "no", d.no_ask, 1 - d.yes_ask, 1 - d.yes_ask - d.no_ask,
   (1 - d.yes_ask - d.no_ask) * 100, 1 - d.yes_ask - d.no_ask,
   (1 - d.yes_ask - d.no_ask) * (7/100), 0,
   1 - d.yes_ask - d.no_ask - (1 - d.yes_ask - d.no_ask) * (7/100),
   (1 - d.yes_ask - d.no_ask - (1 - d.yes_ask - d.no_ask) * (7/100)) /
     d.no_ask * 100, d.volume, d.open_interest⟩

/-- The yes-side bet record the polymarket branch of
`find_mispriced_markets` emits. -/
def poly_yes_bet (p : PolyMarket) : ValueBet :=
  ⟨"polymarket", "yes", p.yes_price, 1 - p.no_price,
   1 - p.no_price - p.yes_price, (1 - p.no_price - p.yes_price) * 100,
   1 - p.no_price - p.yes_price, 0, 1/50,
   1 - p.no_price - p.yes_price - 1/50,
   if p.yes_price > 0
   then (1 - p.no_price - p.yes_price - 1/50) / p.yes_price * 100 else 0,
   p.volume, p.liquidity⟩

/-- The no-side bet record the polymarket branch of
`find_mispriced_markets` emits. -/
def poly_no_bet (p : PolyMarket) : ValueBet :=
  ⟨"polymarket", "no", p.no_price, 1 - p.yes_price,
   1 - p.yes_price - p.no_price, (1 - p.yes_price - p.no_price) * 100,
   1 - p.yes_price - p.no_price, 0, 1/50,
   1 - p.yes_price - p.no_price - 1/50,
   if p.no_price > 0
   then (1 - p.yes_price - p.no_price - 1/50) / p.no_price * 100 else 0,
   p.volume, p.liquidity⟩

lemma mem_value_bets_kalshi (me : ℚ) (d : KalshiDetails) (b : ValueBet) :
    b ∈ value_bets_kalshi me d ↔
      (d.yes_ask ≠ 0 ∧ d.no_ask ≠ 0 ∧ d.yes_bid > 0 ∧
        1 - d.no_ask - d.yes_ask > me ∧ b = kalshi_yes_bet d) ∨
      (d.yes_ask ≠ 0 ∧ d.no_ask ≠ 0 ∧ d.no_bid > 0 ∧
        1 - d.yes_ask - d.no_ask > me ∧ b = kalshi_no_bet d) := by
  unfold value_bets_kalshi kalshi_yes_bet kalshi_no_bet
  split_ifs with h1 h2 h3 h4 h5 h6 <;> simp_all <;> tauto

lemma mem_value_bets_poly (me : ℚ) (p : PolyMarket) (b : ValueBet) :
    b ∈ value_bets_poly me p ↔
      (p.yes_price ≠ 0 ∧ p.no_price ≠ 0 ∧
        1 - p.no_price - p.yes_price > me ∧ b = poly_yes_bet p) ∨
      (p.yes_price ≠ 0 ∧ p.no_price ≠ 0 ∧
        1 - p.yes_price - p.no_price > me ∧ b = poly_no_bet p) := by
  unfold value_bets_poly poly_yes_bet poly_no_bet
  split_ifs with h1 h2 h3 h4 <;> simp_all <;> tauto

/-- C3 counterexample: a venue B market carries no bid quotes at all
(the simplified payload has no bid fields), yet the value evaluator
emits bets for it on edge alone — so the bid-existence gate does not
apply on both venues. -/
theorem poly_value_emits_without_bid :
    value_bets_poly (1/20) ⟨"c", "q", 3/10, 1/2, 0, 0⟩ ≠ [] := by
  intro h
  norm_num [value_bets_poly] at h
  exact absurd h (List.cons_ne_nil _ _)

/-- C3 amended: a value bet is emitted on a side exactly when that side's
edge (fair value minus ask) exceeds `min_edge` and, on venue A only, a
positive bid exists on that side; venue B applies no bid gate (its
simplified market data carries no bids). -/
theorem value_bet_bid_gate (me : ℚ) (d : KalshiDetails) (p : PolyMarket) :
    ((∃ b ∈ value_bets_kalshi me d, b.side = "yes") ↔
      d.yes_ask ≠ 0 ∧ d.no_ask ≠ 0 ∧ d.yes_bid > 0 ∧
        1 - d.no_ask - d.yes_ask > me)
  ∧ ((∃ b ∈ value_bets_kalshi me d, b.side = "no") ↔
      d.yes_ask ≠ 0 ∧ d.no_ask ≠ 0 ∧ d.no_bid > 0 ∧
        1 - d.yes_ask - d.no_ask > me)
  ∧ ((∃ b ∈ value_bets_poly me p, b.side = "yes") ↔
      p.yes_price ≠ 0 ∧ p.no_price ≠ 0 ∧
        1 - p.no_price - p.yes_price > me)
  ∧ ((∃ b ∈ value_bets_poly me p, b.side = "no") ↔
      p.yes_price ≠ 0 ∧ p.no_price ≠ 0 ∧
        1 - p.yes_price - p.no_price > me) := by
  refine ⟨?_, ?_, ?_, ?_⟩
  · constructor
    · rintro ⟨b, hb, hside⟩
      rcases (mem_value_bets_kalshi me d b).1 hb with
        ⟨h1, h2, h3, h4, h5⟩ | ⟨h1, h2, h3, h4, h5⟩
      · exact ⟨h1, h2, h3, h4⟩
      · rw [h5] at hside
        exact absurd hside (by simp [kalshi_no_bet])
    · rintro ⟨h1, h2, h3, h4⟩
      exact ⟨kalshi_yes_bet d,
        (mem_value_bets_kalshi me d _).2 (Or.inl ⟨h1, h2, h3, h4, rfl⟩), rfl⟩
  · constructor
    · rintro ⟨b, hb, hside⟩
      rcases (mem_value_bets_kalshi me d b).1 hb with
        ⟨h1, h2, h3, h4, h5⟩ | ⟨h1, h2, h3, h4, h5⟩
      · rw [h5] at hside
        exact absurd hside (by simp [kalshi_yes_bet])
      · exact ⟨h1, h2, h3, h4⟩
    · rintro ⟨h1, h2, h3, h4⟩
      exact ⟨kalshi_no_bet d,
        (mem_value_bets_kalshi me d _).2 (Or.inr ⟨h1, h2, h3, h4, rfl⟩), rfl⟩
  · constructor
    · rintro ⟨b, hb, hside⟩
      rcases (mem_value_bets_poly me p b).1 hb with
        ⟨h1, h2, h3, h4⟩ | ⟨h1, h2, h3, h4⟩
      · exact ⟨h1, h2, h3⟩
      · rw [h4] at hside
        exact absurd hside (by simp [poly_no_bet])
    · rintro ⟨h1, h2, h3⟩
      exact ⟨poly_yes_bet p,
        (mem_value_bets_poly me p _).2 (Or.inl ⟨h1, h2, h3, rfl⟩), rfl⟩
  · constructor
    · rintro ⟨b, hb, hside⟩
      rcases (mem_value_bets_poly me p b).1 hb with
        ⟨h1, h2, h3, h4⟩ | ⟨h1, h2, h3, h4⟩
      · rw [h4] at hside
        exact absurd hside (by simp [poly_yes_bet])
      · exact ⟨h1, h2, h3⟩
    · rintro ⟨h1, h2, h3⟩
      exact ⟨poly_no_bet p,
        (mem_value_bets_poly me p _).2 (Or.inr ⟨h1, h2, h3, rfl⟩), rfl⟩

/-- C9: every emitted value bet has a nonzero entry price (the truthiness
gate on both asks or prices guarantees it), so the
`roi_pct = net_expected_profit / entry_price * 100` division never has a
zero denominator; the polymarket branch additionally carries an explicit
`> 0` guard returning roi 0. -/
theorem roi_entry_price_nonzero (me : ℚ) (d : KalshiDetails)
    (p : PolyMarket) :
    (∀ b ∈ value_bets_kalshi me d, b.entry_price ≠ 0)
  ∧ (∀ b ∈ value_bets_poly me p, b.entry_price ≠ 0) := by
  constructor
  · intro b hb
    rcases (mem_value_bets_kalshi me d b).1 hb with
      ⟨h1, h2, h3, h4, h5⟩ | ⟨h1, h2, h3, h4, h5⟩
    · rw [h5]
      exact h1
    · rw [h5]
      exact h2
  · intro b hb
    rcases (mem_value_bets_poly me p b).1 hb with
      ⟨h1, h2, h3, h4⟩ | ⟨h1, h2, h3, h4⟩
    · rw [h4]
      exact h1
    · rw [h4]
      exact h2

/-- C9 witness: a concrete kalshi detail row emits its yes-side bet, whose
entry price is nonzero. -/
theorem roi_entry_price_nonzero_fact :
    kalshi_yes_bet ⟨"T", "t", 3/10, 1/2, 1/10, 0, 0, 0⟩ ∈
      value_bets_kalshi (1/20) ⟨"T", "t", 3/10, 1/2, 1/10, 0, 0, 0⟩ ∧
    (kalshi_yes_bet ⟨"T", "t", 3/10, 1/2, 1/10, 0, 0, 0⟩).entry_price ≠ 0 := by
  have hmem : kalshi_yes_bet (⟨"T", "t", 3/10, 1/2, 1/10, 0, 0, 0⟩ :
      KalshiDetails) ∈
      value_bets_kalshi (1/20) ⟨"T", "t", 3/10, 1/2, 1/10, 0, 0, 0⟩ :=
    (mem_value_bets_kalshi (1/20) _ _).2
      (Or.inl ⟨by norm_num, by norm_num, by norm_num, by norm_num, rfl⟩)
  exact ⟨hmem,
    (roi_entry_price_nonzero (1/20) ⟨"T", "t", 3/10, 1/2, 1/10, 0, 0, 0⟩
      ⟨"c", "q", 1, 1, 0, 0⟩).1 _ hmem⟩

/-- C8: every scanner output list is non-increasingly sorted by its
category's key (`profit_percentage` for cross-venue and internal
arbitrage, `edge_percentage` for value bets, `|yes_price - 0.5|` for
extreme probabilities), and for every key value the elements carrying it
appear in exactly their discovery order (stable ties). -/
theorem scanner_outputs_ranked (thr me et k : ℚ)
    (ks : List KalshiMarket) (ds : List KalshiDetails)
    (ps : List PolyMarket) :
    ((find_cross_platform_arbitrage thr ks ps).Pairwise
        (fun a b => b.profit_percentage ≤ a.profit_percentage)
      ∧ (find_cross_platform_arbitrage thr ks ps).filter
          (fun o => decide (o.profit_percentage = k)) =
        (cross_candidates thr ks ps).filter
          (fun o => decide (o.profit_percentage = k)))
  ∧ ((find_internal_arbitrage_kalshi thr ks).Pairwise
        (fun a b => b.profit_percentage ≤ a.profit_percentage)
      ∧ (find_internal_arbitrage_kalshi thr ks).filter
          (fun o => decide (o.profit_percentage = k)) =
        (internal_candidates_kalshi thr ks).filter
          (fun o => decide (o.profit_percentage = k)))
  ∧ ((find_internal_arbitrage_poly thr ps).Pairwise
        (fun a b => b.profit_percentage ≤ a.profit_percentage)
      ∧ (find_internal_arbitrage_poly thr ps).filter
          (fun o => decide (o.profit_percentage = k)) =
        (internal_candidates_poly thr ps).filter
          (fun o => decide (o.profit_percentage = k)))
  ∧ ((find_mispriced_markets_kalshi me ds).Pairwise
        (fun a b => b.edge_percentage ≤ a.edge_percentage)
      ∧ (find_mispriced_markets_kalshi me ds).filter
          (fun b => decide (b.edge_percentage = k)) =
        (value_candidates_kalshi me ds).filter
          (fun b => decide (b.edge_percentage = k)))
  ∧ ((find_mispriced_markets_poly me ps).Pairwise
        (fun a b => b.edge_percentage ≤ a.edge_percentage)
      ∧ (find_mispriced_markets_poly me ps).filter
          (fun b => decide (b.edge_percentage = k)) =
        (value_candidates_poly me ps).filter
          (fun b => decide (b.edge_percentage = k)))
  ∧ ((find_extreme_probabilities_kalshi et ds).Pairwise
        (fun a b => |b.yes_price - 1/2| ≤ |a.yes_price - 1/2|)
      ∧ (find_extreme_probabilities_kalshi et ds).filter
          (fun e => decide (|e.yes_price - 1/2| = k)) =
        (extreme_candidates_kalshi et ds).filter
          (fun e => decide (|e.yes_price - 1/2| = k)))
  ∧ ((find_extreme_probabilities_poly et ps).Pairwise
        (fun a b => |b.yes_price - 1/2| ≤ |a.yes_price - 1/2|)
      ∧ (find_extreme_probabilities_poly et ps).filter
          (fun e => decide (|e.yes_price - 1/2| = k)) =
        (extreme_candidates_poly et ps).filter
          (fun e => decide (|e.yes_price - 1/2| = k))) :=
  ⟨⟨sorted_desc_by_sorted _ _, sorted_desc_by_stable _ k _⟩,
   ⟨sorted_desc_by_sorted _ _, sorted_desc_by_stable _ k _⟩,
   ⟨sorted_desc_by_sorted _ _, sorted_desc_by_stable _ k _⟩,
   ⟨sorted_desc_by_sorted _ _, sorted_desc_by_stable _ k _⟩,
   ⟨sorted_desc_by_sorted _ _, sorted_desc_by_stable _ k _⟩,
   ⟨sorted_desc_by_sorted _ _, sorted_desc_by_stable _ k _⟩,
   ⟨sorted_desc_by_sorted _ _, sorted_desc_by_stable _ k _⟩⟩
